import Mathlib

/-
Verification development for the deepstreampy record synchronization core
(deepstreampy_twisted/record.py and deepstreampy_twisted/utils.py).

The embedding below translates the record state machine, the list diffing
logic, the single-request notifier and the record handler registries into
executable Lean definitions.  Messages already decoded by the codec are
modelled as structured values; network sends and callback invocations are
returned explicitly as data.
-/

namespace DeepstreamModel

/-- JSON values, the data carried by records.  Objects keep their fields as an
ordered association list, mirroring insertion-ordered Python dicts. -/
inductive JValue where
  | null
  | bool (b : Bool)
  | num (n : Int)
  | str (s : String)
  | arr (xs : List JValue)
  | obj (fs : List (String × JValue))
deriving Repr

mutual
/-- Structural equality of JSON values, mirroring the Python == comparison
used throughout record.py. -/
def jeq : JValue → JValue → Bool
  | JValue.null, JValue.null => true
  | JValue.bool a, JValue.bool b => a = b
  | JValue.num a, JValue.num b => a = b
  | JValue.str a, JValue.str b => a = b
  | JValue.arr xs, JValue.arr ys => jeqArr xs ys
  | JValue.obj fs, JValue.obj gs => jeqObj fs gs
  | _, _ => false

def jeqArr : List JValue → List JValue → Bool
  | [], [] => true
  | x :: xs, y :: ys => jeq x y && jeqArr xs ys
  | _, _ => false

def jeqObj : List (String × JValue) → List (String × JValue) → Bool
  | [], [] => true
  | (k, v) :: fs, (k2, v2) :: gs => decide (k = k2) && jeq v v2 && jeqObj fs gs
  | _, _ => false
end

mutual
theorem jeq_refl : ∀ a, jeq a a = true
  | JValue.null => rfl
  | JValue.bool b => by simp [jeq]
  | JValue.num n => by simp [jeq]
  | JValue.str s => by simp [jeq]
  | JValue.arr xs => by simp [jeq, jeqArr_refl xs]
  | JValue.obj fs => by simp [jeq, jeqObj_refl fs]

theorem jeqArr_refl : ∀ xs, jeqArr xs xs = true
  | [] => rfl
  | x :: xs => by simp [jeqArr, jeq_refl x, jeqArr_refl xs]

theorem jeqObj_refl : ∀ fs, jeqObj fs fs = true
  | [] => rfl
  | (k, v) :: fs => by simp [jeqObj, jeq_refl v, jeqObj_refl fs]
end

/-- One token of a JSON path: an object key or an array index. -/
inductive PathTok where
  | key (k : String)
  | idx (i : Nat)
deriving DecidableEq, Repr

abbrev JPath := List PathTok

def lookupField : List (String × JValue) → String → Option JValue
  | [], _ => none
  | (k2, v) :: fs, k => if k2 = k then some v else lookupField fs k

/-- Modelled from the spec: the deepstreampy jsonpath module is imported by
record.py but is not part of this repository.  Per the spec, get resolves a
JSON path to the value stored there (None when the path does not resolve). -/
def jsonpathGet : JPath → JValue → Option JValue
  | [], d => some d
  | PathTok.key k :: p, JValue.obj fs =>
      match lookupField fs k with
      | some v => jsonpathGet p v
      | none => none
  | PathTok.idx i :: p, JValue.arr xs =>
      match xs[i]? with
      | some v => jsonpathGet p v
      | none => none
  | _, _ => none

def updateFirst : List (String × JValue) → String → (JValue → JValue) → JValue →
    List (String × JValue)
  | [], k, _, created => [(k, created)]
  | (k2, v2) :: fs, k, f, created =>
      if k2 = k then (k2, f v2) :: fs else (k2, v2) :: updateFirst fs k f created

def updateAt : List JValue → Nat → (JValue → JValue) → JValue → List JValue
  | [], 0, _, created => [created]
  | [], Nat.succ n, f, created => JValue.null :: updateAt [] n f created
  | x :: xs, 0, f, _ => f x :: xs
  | x :: xs, Nat.succ n, f, created => x :: updateAt xs n f created

/-- Modelled from the spec: the deepstreampy jsonpath module is not part of
this repository.  Per the spec, set applies a value at a path against a copy
of the current data, replacing the whole document when the path is empty and
creating intermediate containers for missing steps. -/
def jsonpathSet : JPath → JValue → JValue → JValue
  | [], _, v => v
  | PathTok.key k :: p, d, v =>
      let fs := match d with | JValue.obj fs => fs | _ => []
      JValue.obj (updateFirst fs k (fun old => jsonpathSet p old v)
        (jsonpathSet p JValue.null v))
  | PathTok.idx i :: p, d, v =>
      let xs := match d with | JValue.arr xs => xs | _ => []
      JValue.arr (updateAt xs i (fun old => jsonpathSet p old v)
        (jsonpathSet p JValue.null v))

theorem updateFirst_id (fs : List (String × JValue)) (k : String)
    (f : JValue → JValue) (c : JValue) (w : JValue)
    (hl : lookupField fs k = some w) (hf : f w = w) :
    updateFirst fs k f c = fs := by
  induction fs with
  | nil => simp [lookupField] at hl
  | cons hd tl ih =>
      obtain ⟨k2, v2⟩ := hd
      by_cases hk : k2 = k
      · subst hk
        simp [lookupField] at hl
        subst hl
        simp [updateFirst, hf]
      · simp [lookupField, hk] at hl
        simp [updateFirst, hk, ih hl]

theorem updateAt_id (xs : List JValue) (i : Nat) (f : JValue → JValue)
    (c : JValue) (w : JValue) (hl : xs[i]? = some w) (hf : f w = w) :
    updateAt xs i f c = xs := by
  induction xs generalizing i with
  | nil => simp at hl
  | cons hd tl ih =>
      cases i with
      | zero => simp at hl; subst hl; simp [updateAt, hf]
      | succ n => simp at hl; simp [updateAt, ih n hl]

/-- Setting a path to the exact value already stored there leaves the document
unchanged. -/
theorem jsonpathSet_get_id (p : JPath) : ∀ (d v : JValue),
    jsonpathGet p d = some v → jsonpathSet p d v = d := by
  induction p with
  | nil => intro d v h; simp [jsonpathGet] at h; subst h; rfl
  | cons tok p ih =>
      intro d v h
      cases tok with
      | key k =>
          cases d with
          | obj fs =>
              simp only [jsonpathGet] at h
              cases hl : lookupField fs k with
              | none => rw [hl] at h; simp at h
              | some w =>
                  rw [hl] at h
                  simp only [jsonpathSet]
                  rw [updateFirst_id fs k _ _ w hl (ih w v h)]
          | null => simp [jsonpathGet] at h
          | bool b => simp [jsonpathGet] at h
          | num n => simp [jsonpathGet] at h
          | str s => simp [jsonpathGet] at h
          | arr xs => simp [jsonpathGet] at h
      | idx i =>
          cases d with
          | arr xs =>
              simp only [jsonpathGet] at h
              cases hl : xs[i]? with
              | none => rw [hl] at h; simp at h
              | some w =>
                  rw [hl] at h
                  simp only [jsonpathSet]
                  rw [updateAt_id xs i _ _ w hl (ih w v h)]
          | null => simp [jsonpathGet] at h
          | bool b => simp [jsonpathGet] at h
          | num n => simp [jsonpathGet] at h
          | str s => simp [jsonpathGet] at h
          | obj fs => simp [jsonpathGet] at h

/-- Connection states of the transport collaborator. -/
inductive ConnState where
  | closed
  | awaitingConnection
  | authenticating
  | awaitingAuthentication
  | opened
  | reconnecting
  | errorState
deriving DecidableEq, Repr

/-- Protocol actions used by the record core. -/
inductive ActionT where
  | createorread
  | read
  | update
  | patch
  | snapshot
  | hasAction
  | errorAction
  | ack
  | unsubscribe
  | deleteAction
  | listen
  | unlisten
  | writeAcknowledgement
deriving DecidableEq, Repr

/-- One element of an outbound message data list.  The builder serializes
names and paths as strings, versions as numbers, documents as JSON, patched
values in the typed format, and the write config as a JSON object; the raw
request entry list is what resend accidentally places on the wire. -/
inductive WireDatum where
  | str (s : String)
  | num (n : Int)
  | json (v : JValue)
  | path (p : JPath)
  | typed (v : JValue)
  | writeConfig (writeSuccess : Bool)
  | entryRecords (cbs : List Nat)
deriving Repr

/-- An outbound message passed to connection.send_message. -/
structure OutMsg where
  topic : String
  action : ActionT
  data : List WireDatum
deriving Repr

def recordTopic : String := "RECORD"

/-- Whether a message data list mentions a given name as a plain string. -/
def mentionsName (m : OutMsg) (s : String) : Bool :=
  m.data.any fun d => match d with
    | WireDatum.str s2 => s2 = s
    | _ => false

/-- The mutable state of one Record instance.  Callbacks are identified by
numeric tokens; write_callbacks maps the version a write is expected to
produce to the registered callback token, as an insertion-ordered
association list mirroring the Python dict. -/
structure RecordState where
  name : String
  version : Option Int
  data : JValue
  isReady : Bool
  isDestroyed : Bool
  writeCallbacks : List (Int × Nat)
  queued : List (JValue × Option JPath)
deriving Repr

def cbLookup : List (Int × Nat) → Int → Option Nat
  | [], _ => none
  | (k, c) :: rest, v => if k = v then some c else cbLookup rest v

def cbInsert : List (Int × Nat) → Int → Nat → List (Int × Nat)
  | [], v, c => [(v, c)]
  | (k, c0) :: rest, v, c =>
      if k = v then (k, c) :: rest else (k, c0) :: cbInsert rest v c

def cbErase : List (Int × Nat) → Int → List (Int × Nat)
  | [], _ => []
  | (k, c0) :: rest, v => if k = v then rest else (k, c0) :: cbErase rest v

/-- The result of one record operation: the new state, the messages handed to
the connection, the callback invocations (token and error argument), and
whether a ValueError was raised or an error event was emitted. -/
structure EffectResult where
  state : RecordState
  sent : List OutMsg
  invoked : List (Nat × Option String)
  errorEmitted : Bool
deriving Repr

def isContainer : JValue → Bool
  | JValue.obj _ => true
  | JValue.arr _ => true
  | _ => false

/-- Record.set computes the new document from the current data by applying
data at the path, replacing the whole document when no path is given. -/
def newValueFor (r : RecordState) (path : Option JPath) (data : JValue) : JValue :=
  match path with
  | none => data
  | some p => jsonpathSet p r.data data

/-- Record._set_up_callback: registers the callback under
(current_version or 0) + 1, the version the write is expected to produce. -/
def setUpCallback (cbs : List (Int × Nat)) (currentVersion : Option Int)
    (cb : Nat) : List (Int × Nat) :=
  cbInsert cbs ((match currentVersion with | some v => v | none => 0) + 1) cb

def connectionLostError : String :=
  "Connection error: error updating record as connection was closed"

/-- Record._send_update: increments the version, then sends an UPDATE for a
whole-document write or a PATCH for a path write, appending the write config
when one was built. -/
def sendUpdate (r : RecordState) (path : Option JPath) (data : JValue)
    (hasConfig : Bool) : RecordState × OutMsg :=
  let v : Int := (match r.version with | some v => v | none => 0) + 1
  let r2 := { r with version := some v }
  match path with
  | none =>
      (r2, ⟨recordTopic, ActionT.update,
        [WireDatum.str r.name, WireDatum.num v, WireDatum.json data] ++
        (if hasConfig then [WireDatum.writeConfig true] else [])⟩)
  | some p =>
      (r2, ⟨recordTopic, ActionT.patch,
        [WireDatum.str r.name, WireDatum.num v, WireDatum.path p,
         WireDatum.typed data] ++
        (if hasConfig then [WireDatum.writeConfig true] else [])⟩)

/-- Record._apply_change stores the new data unless the record is destroyed.
Subscriber notification, which it also performs, is not modelled here. -/
def applyChange (r : RecordState) (newData : JValue) : RecordState :=
  if r.isDestroyed then r else { r with data := newData }

/-- Record.set.  The queued closure built for a not-yet-ready record captures
only data and path; the callback argument is not stored (record.py line 107). -/
def recordSet (cs : ConnState) (r : RecordState) (data : JValue)
    (path : Option JPath) (callback : Option Nat) : EffectResult :=
  if path.isNone && !isContainer data then
    { state := r, sent := [], invoked := [], errorEmitted := true }
  else if r.isDestroyed then
    { state := r, sent := [], invoked := [], errorEmitted := true }
  else if !r.isReady then
    { state := { r with queued := r.queued ++ [(data, path)] },
      sent := [], invoked := [], errorEmitted := false }
  else
    let newValue := newValueFor r path data
    if jeq newValue r.data then
      { state := r, sent := [], invoked := [], errorEmitted := false }
    else
      let hasConfig := callback.isSome
      let r1 := match callback with
        | some cb =>
            { r with writeCallbacks := setUpCallback r.writeCallbacks r.version cb }
        | none => r
      let invoked := match callback with
        | some cb =>
            if cs = ConnState.closed ∨ cs = ConnState.reconnecting then
              [(cb, some connectionLostError)]
            else []
        | none => []
      let (r2, msg) := sendUpdate r1 path data hasConfig
      { state := applyChange r2 newValue, sent := [msg], invoked := invoked,
        errorEmitted := false }

/-- Record._set_ready: marks the record ready and replays the queued method
calls in order.  A queued set replays with no callback because the stored
closure never captured one. -/
def setReady (cs : ConnState) (r : RecordState) : RecordState × List OutMsg :=
  let q := r.queued
  let r1 := { r with isReady := true, queued := [] }
  q.foldl (fun acc c =>
    let res := recordSet cs acc.1 c.1 c.2 none
    (res.state, acc.2 ++ res.sent)) (r1, [])

/-- Record._on_read: stores the version and data from the first READ response
and completes readiness.  Subscriber notification is not modelled. -/
def onRead (cs : ConnState) (r : RecordState) (version : Int) (d : JValue) :
    RecordState × List OutMsg :=
  setReady cs { r with version := some version, data := d }

/-- The kind of an inbound update message. -/
inductive UpdAction where
  | update
  | patch
deriving DecidableEq, Repr

/-- An inbound UPDATE or PATCH message after codec decoding: data[1] is the
remote version, data[2] is the patch path or the JSON document, a PATCH
carries its typed value in data[3], and data[4] is the optional write config
when the message has at least five data elements. -/
structure UpdateMessage where
  action : UpdAction
  version : Int
  path : JPath
  payload : JValue
  writeConfig : Option Bool
deriving Repr

/-- The data application performed by Record._apply_update once the version
check passed: a PATCH sets the decoded value at the message path, an UPDATE
replaces the whole document. -/
def applyMsgData (r : RecordState) (m : UpdateMessage) : RecordState :=
  match m.action with
  | UpdAction.patch => { r with data := jsonpathSet m.path r.data m.payload }
  | UpdAction.update => { r with data := m.payload }

/-- The three ways Record._apply_update can resolve. -/
inductive ApplyOutcome where
  | applied (r : RecordState)
  | snapshotRequested (msg : OutMsg)
  | recoverConflict (remoteVersion : Int) (remoteData : JValue)
deriving Repr

/-- Record._apply_update, record.py lines 328 to 355. -/
def applyUpdate (r : RecordState) (m : UpdateMessage) : ApplyOutcome :=
  match r.version with
  | none =>
      ApplyOutcome.applied (applyMsgData { r with version := some m.version } m)
  | some v =>
      if v + 1 ≠ m.version then
        if m.action = UpdAction.patch then
          ApplyOutcome.snapshotRequested
            ⟨recordTopic, ActionT.snapshot, [WireDatum.str r.name]⟩
        else
          ApplyOutcome.recoverConflict m.version m.payload
      else
        ApplyOutcome.applied (applyMsgData { r with version := some m.version } m)

/-- Record._on_record_recovered, record.py lines 281 to 312: invoked by the
merge strategy resolver with the merge error and the reconciled data. -/
def onRecordRecovered (r : RecordState) (remoteVersion : Int)
    (remoteData : JValue) (msgConfig : Option Bool)
    (mergeError : Option String) (data : JValue) : EffectResult :=
  match mergeError with
  | some _ =>
      { state := r, sent := [], invoked := [], errorEmitted := true }
  | none =>
      let oldVersion := r.version
      let r1 := { r with version := some remoteVersion }
      let newValue := data
      if jeq data remoteData then
        let r2 := applyChange r1 data
        match cbLookup r2.writeCallbacks remoteVersion with
        | some cb =>
            { state :=
                { r2 with writeCallbacks := cbErase r2.writeCallbacks remoteVersion },
              sent := [], invoked := [(cb, none)], errorEmitted := false }
        | none =>
            { state := r2, sent := [], invoked := [], errorEmitted := false }
      else
        let r2 :=
          if msgConfig = some true then
            match oldVersion with
            | some ov =>
                match cbLookup r1.writeCallbacks ov with
                | some cb =>
                    { r1 with writeCallbacks :=
                        setUpCallback (cbErase r1.writeCallbacks ov) r1.version cb }
                | none => r1
            | none => r1
          else r1
        let (r3, msg) := sendUpdate r2 none data msgConfig.isSome
        { state := applyChange r3 newValue, sent := [msg], invoked := [],
          errorEmitted := false }

/-- Modelled from the spec: merge_strategies.remote_wins is imported from the
deepstreampy package and is not part of this repository.  Per the spec the
default strategy accepts the remote data as-is, resolving with no error. -/
def remoteWins (remoteData : JValue) : Option String × JValue :=
  (none, remoteData)

/-- Record._recover_record under the default merge strategy: the strategy
resolves synchronously and _on_record_recovered is invoked. -/
def recoverRecordDefault (r : RecordState) (remoteVersion : Int)
    (remoteData : JValue) (msgConfig : Option Bool) : EffectResult :=
  let res := remoteWins remoteData
  onRecordRecovered r remoteVersion remoteData msgConfig res.1 res.2

/-- One full inbound UPDATE or PATCH processing step, with conflict recovery
resolved through the default remote-wins merge strategy. -/
def remoteStep (r : RecordState) (m : UpdateMessage) : EffectResult :=
  match applyUpdate r m with
  | ApplyOutcome.applied r2 =>
      { state := r2, sent := [], invoked := [], errorEmitted := false }
  | ApplyOutcome.snapshotRequested msg =>
      { state := r, sent := [msg], invoked := [], errorEmitted := false }
  | ApplyOutcome.recoverConflict rv rd =>
      recoverRecordDefault r rv rd m.writeConfig

/-- Events emitted by the structural diffing of List. -/
inductive ListEvent where
  | added (entry : String) (i : Nat)
  | removed (entry : String) (i : Nat)
  | moved (entry : String) (i : Nat)
deriving DecidableEq, Repr

def alookup : List (String × List Nat) → String → Option (List Nat)
  | [], _ => none
  | (k, v) :: rest, name => if k = name then some v else alookup rest name

def aset : List (String × List Nat) → String → List Nat → List (String × List Nat)
  | [], name, v => [(name, v)]
  | (k, v0) :: rest, name, v =>
      if k = name then (k, v) :: rest else (k, v0) :: aset rest name v

def aerase : List (String × List Nat) → String → List (String × List Nat)
  | [], _ => []
  | (k, v0) :: rest, name => if k = name then rest else (k, v0) :: aerase rest name

def structInsert : List (String × List Nat) → String → Nat →
    List (String × List Nat)
  | [], e, i => [(e, [i])]
  | (e2, idxs) :: rest, e, i =>
      if e2 = e then (e2, idxs ++ [i]) :: rest
      else (e2, idxs) :: structInsert rest e i

/-- List._get_structure: maps each entry value to the ordered list of indices
it occupies, in first-occurrence order like the Python dict. -/
def getStructure (entries : List String) : List (String × List Nat) :=
  entries.enum.foldl (fun st p => structInsert st p.2 p.1) []

/-- The removal pass of List._after_change: for every value of the before
structure that disappeared or lost occurrences, a removed event fires for
each of its former indices that is absent afterwards. -/
def removeEvents (before after : List (String × List Nat)) : List ListEvent :=
  before.foldl (fun acc e =>
    match alookup after e.1 with
    | none => acc ++ e.2.map (fun n => ListEvent.removed e.1 n)
    | some aIdxs =>
        if aIdxs.length < e.2.length then
          acc ++ (e.2.filter (fun n => !aIdxs.contains n)).map
            (fun n => ListEvent.removed e.1 n)
        else acc) []

/-- The add and move pass of List._after_change: a value absent before emits
added for all its indices; a value whose index list changed emits added for
new indices when the count changed, and moved for every one of its current
indices when the count is unchanged. -/
def addMoveEvents (before after : List (String × List Nat)) : List ListEvent :=
  after.foldl (fun acc e =>
    match alookup before e.1 with
    | none => acc ++ e.2.map (fun n => ListEvent.added e.1 n)
    | some bIdxs =>
        if bIdxs ≠ e.2 then
          let lenChanged := bIdxs.length ≠ e.2.length
          acc ++ e.2.filterMap (fun n =>
            if lenChanged && !bIdxs.contains n then some (ListEvent.added e.1 n)
            else if !lenChanged then some (ListEvent.moved e.1 n)
            else none)
        else acc) []

/-- List._after_change given the listener flags captured by _before_change. -/
def afterChangeEvents (hasAdd hasRemove hasMove : Bool)
    (before after : List (String × List Nat)) : List ListEvent :=
  (if hasRemove then removeEvents before after else []) ++
  (if hasAdd || hasMove then addMoveEvents before after else [])

def strArr (xs : List String) : JValue :=
  JValue.arr (xs.map JValue.str)

/-- The entries of a list document; non-array data reads as empty, as in
List.get. -/
def entriesOf : JValue → List String
  | JValue.arr xs => xs.filterMap (fun x => match x with
      | JValue.str s => some s
      | _ => none)
  | _ => []

/-- List.set on a ready list: the structural diff brackets the underlying
Record.set.  The three flags state which diff listeners are registered. -/
def listSet (hasAdd hasRemove hasMove : Bool) (cs : ConnState)
    (r : RecordState) (entries : List String) : EffectResult × List ListEvent :=
  let before := getStructure (entriesOf r.data)
  let res := recordSet cs r (strArr entries) none none
  let after := getStructure (entriesOf res.state.data)
  (res, afterChangeEvents hasAdd hasRemove hasMove before after)

/-- List.remove_entry on a ready list: removes the first occurrence of the
entry from a copy of the current entries and calls set. -/
def listRemoveEntry (hasAdd hasRemove hasMove : Bool) (cs : ConnState)
    (r : RecordState) (entry : String) : EffectResult × List ListEvent :=
  let current := entriesOf r.data
  listSet hasAdd hasRemove hasMove cs r (current.erase entry)

/-- The request map of a SingleNotifier: each pending name holds its waiting
callbacks in registration order (the Python entries also carry a timeout
handle, which is not modelled). -/
structure NotifierState where
  requests : List (String × List Nat)
deriving Repr

/-- SingleNotifier.request, utils.py lines 40 to 54: the first caller for a
name triggers the wire send; later callers for the same name only append
their callback to the pending entry. -/
def snRequest (topic : String) (act : ActionT) (n : NotifierState)
    (name : String) (cb : Nat) : NotifierState × List OutMsg :=
  match alookup n.requests name with
  | none =>
      ({ requests := n.requests ++ [(name, [cb])] },
       [⟨topic, act, [WireDatum.str name]⟩])
  | some cbs =>
      ({ requests := aset n.requests name (cbs ++ [cb]) }, [])

/-- SingleNotifier.receive, utils.py lines 56 to 61: every waiting callback
for the name is invoked in registration order and the entry is removed.  A
name with no pending entry raises KeyError, modelled as none. -/
def snReceive (n : NotifierState) (name : String) :
    Option (NotifierState × List Nat) :=
  match alookup n.requests name with
  | none => none
  | some cbs => some ({ requests := aerase n.requests name }, cbs)

/-- SingleNotifier._resend_requests, utils.py lines 70 to 73: for every
pending name the code sends a message whose data list holds the stored
request entry list itself, not the name. -/
def resendRequests (topic : String) (act : ActionT) (n : NotifierState) :
    List OutMsg :=
  n.requests.map (fun e => ⟨topic, act, [WireDatum.entryRecords e.2]⟩)

/-- ResubscribeNotifier._handle_connection_state_changes, utils.py lines 186
to 191: returns the new reconnecting flag and whether the resubscribe action
fires. -/
def handleConnStateChange (isReconnecting : Bool) (s : ConnState) :
    Bool × Bool :=
  if s = ConnState.reconnecting ∧ isReconnecting = false then (true, false)
  else if s = ConnState.opened ∧ isReconnecting = true then (false, true)
  else (isReconnecting, false)

/-- The parts of RecordHandler state needed by the has and error paths:
resident record names and the two SingleNotifier registries. -/
structure HandlerState where
  records : List String
  hasRegistry : NotifierState
  snapshotRegistry : NotifierState
deriving Repr

structure HasResult where
  handler : HandlerState
  invokedNow : List Nat
  sent : List OutMsg
deriving Repr

/-- RecordHandler.has: a resident name answers immediately with true;
otherwise the has registry deduplicates the request. -/
def handlerHas (h : HandlerState) (name : String) (cb : Nat) : HasResult :=
  if h.records.contains name then
    { handler := h, invokedNow := [cb], sent := [] }
  else
    let res := snRequest recordTopic ActionT.hasAction h.hasRegistry name cb
    { handler := { h with hasRegistry := res.1 }, invokedNow := [],
      sent := res.2 }

/-- N concurrent has calls for one name: the resulting handler state and the
total number of wire sends. -/
def hasMany (h : HandlerState) (name : String) (cbs : List Nat) :
    HandlerState × Nat :=
  cbs.foldl (fun acc cb =>
    ((handlerHas acc.1 name cb).handler,
     acc.2 + (handlerHas acc.1 name cb).sent.length)) (h, 0)

/-- The error tag data[0] of an inbound ERROR message. -/
inductive ErrTag where
  | versionExists
  | snapshotTag
  | hasTag
  | deleteTag
  | unsubscribeTag
  | otherTag (s : String)
deriving DecidableEq, Repr

structure ErrOutcome where
  handler : HandlerState
  clientError : Bool
  delivered : Option (List Nat)
  keyError : Bool
deriving Repr

/-- RecordHandler.handle for an inbound ERROR message, record.py lines 875 to
900: tags other than VERSION_EXISTS, SNAPSHOT and HAS surface directly as a
client error; for both the SNAPSHOT and the HAS tag the code calls
receive on self._snapshot_registry (record.py line 899); a VERSION_EXISTS
error falls through to record routing. -/
def handleRecordError (h : HandlerState) (tag : ErrTag) (name : String) :
    ErrOutcome :=
  if tag ≠ ErrTag.versionExists ∧ tag ≠ ErrTag.snapshotTag ∧
      tag ≠ ErrTag.hasTag then
    { handler := h, clientError := true, delivered := none, keyError := false }
  else if tag = ErrTag.snapshotTag ∨ tag = ErrTag.hasTag then
    match snReceive h.snapshotRegistry name with
    | some (reg, cbs) =>
        { handler := { h with snapshotRegistry := reg }, clientError := false,
          delivered := some cbs, keyError := false }
    | none =>
        { handler := h, clientError := false, delivered := none,
          keyError := true }
  else
    { handler := h, clientError := false, delivered := none, keyError := false }

def rlookup : List (String × Nat) → String → Option Nat
  | [], _ => none
  | (k, v) :: rest, name => if k = name then some v else rlookup rest name

def rerase : List (String × Nat) → String → List (String × Nat)
  | [], _ => []
  | (k, v) :: rest, name => if k = name then rest else (k, v) :: rerase rest name

/-- The records and lists registries of a RecordHandler, mapping names to
entity identities. -/
structure RegState where
  records : List (String × Nat)
  lists : List (String × Nat)
deriving DecidableEq, Repr

/-- RecordHandler.get_list, record.py lines 744 to 772: returns the cached
list when resident, otherwise registers a fresh one under lists, and under
records only when the name is not already there. -/
def getListReg (h : RegState) (name : String) (fresh : Nat) : RegState × Nat :=
  match rlookup h.lists name with
  | some i =>
      let records2 :=
        match rlookup h.records name with
        | some _ => h.records
        | none => h.records ++ [(name, i)]
      ({ records := records2, lists := h.lists }, i)
  | none =>
      let records2 :=
        match rlookup h.records name with
        | some _ => h.records
        | none => h.records ++ [(name, fresh)]
      ({ records := records2, lists := h.lists ++ [(name, fresh)] }, fresh)

/-- RecordHandler._remove_record, record.py lines 950 to 954: deletes the
name from records when present there, and only otherwise from lists. -/
def removeRecord (h : RegState) (name : String) : RegState :=
  match rlookup h.records name with
  | some _ => { h with records := rerase h.records name }
  | none =>
      match rlookup h.lists name with
      | some _ => { h with lists := rerase h.lists name }
      | none => h

/-- Claim C1: on an inbound UPDATE or PATCH, a null local version accepts the
remote version and data outright; otherwise the update is applied exactly
when local version + 1 equals the remote version; for any other relationship
a PATCH sends a SNAPSHOT request for the record name without applying data,
and an UPDATE hands the remote version and data to conflict recovery. -/
theorem apply_update_version_policy (r : RecordState) (m : UpdateMessage) :
    (r.version = none →
      applyUpdate r m =
        ApplyOutcome.applied (applyMsgData { r with version := some m.version } m)) ∧
    (∀ v, r.version = some v → v + 1 = m.version →
      applyUpdate r m =
        ApplyOutcome.applied (applyMsgData { r with version := some m.version } m)) ∧
    (∀ v, r.version = some v → v + 1 ≠ m.version → m.action = UpdAction.patch →
      applyUpdate r m = ApplyOutcome.snapshotRequested
        ⟨recordTopic, ActionT.snapshot, [WireDatum.str r.name]⟩ ∧
      (remoteStep r m).state = r) ∧
    (∀ v, r.version = some v → v + 1 ≠ m.version → m.action = UpdAction.update →
      applyUpdate r m = ApplyOutcome.recoverConflict m.version m.payload) := by
  refine ⟨?_, ?_, ?_, ?_⟩
  · intro h
    simp [applyUpdate, h]
  · intro v hv hm
    simp [applyUpdate, hv, hm]
  · intro v hv hne hact
    constructor
    · simp [applyUpdate, hv, hne, hact]
    · simp [remoteStep, applyUpdate, hv, hne, hact]
  · intro v hv hne hact
    have : m.action ≠ UpdAction.patch := by
      rw [hact]; intro hc; cases hc
    simp [applyUpdate, hv, hne, this]

def c1Record : RecordState :=
  { name := "r1", version := some 1, data := JValue.obj [("a", JValue.num 1)],
    isReady := true, isDestroyed := false, writeCallbacks := [], queued := [] }

def c1PatchMsg : UpdateMessage :=
  { action := UpdAction.patch, version := 5, path := [PathTok.key "a"],
    payload := JValue.num 9, writeConfig := none }

theorem apply_update_version_policy_witness :
    applyUpdate c1Record c1PatchMsg = ApplyOutcome.snapshotRequested
      ⟨recordTopic, ActionT.snapshot, [WireDatum.str c1Record.name]⟩ ∧
    (remoteStep c1Record c1PatchMsg).state = c1Record :=
  (apply_update_version_policy c1Record c1PatchMsg).2.2.1 1 rfl (by decide) rfl

/-- Claim C4: on a ready, non-destroyed record, calling set with data
structurally equal to the current data, either for the whole document or at
a resolving path, leaves the record state (in particular the version)
unchanged, sends nothing and invokes no callback. -/
theorem set_equal_data_noop (cs : ConnState) (r : RecordState) (data : JValue)
    (path : Option JPath) (cb : Option Nat)
    (hready : r.isReady = true) (hdest : r.isDestroyed = false)
    (heq : match path with
           | none => data = r.data
           | some p => jsonpathGet p r.data = some data) :
    (recordSet cs r data path cb).state = r ∧
    (recordSet cs r data path cb).sent = [] ∧
    (recordSet cs r data path cb).invoked = [] := by
  by_cases hguard : (path.isNone && !isContainer data) = true
  · simp [recordSet, hguard]
  · have hval : newValueFor r path data = r.data := by
      cases path with
      | none => simpa [newValueFor] using heq
      | some p => exact jsonpathSet_get_id p r.data data heq
    have hjeq : jeq (newValueFor r path data) r.data = true := by
      rw [hval]; exact jeq_refl r.data
    simp [recordSet, hguard, hdest, hready, hjeq]

def c4Record : RecordState :=
  { name := "r1", version := some 3, data := JValue.obj [("a", JValue.num 1)],
    isReady := true, isDestroyed := false, writeCallbacks := [], queued := [] }

theorem set_equal_data_noop_witness :
    (recordSet ConnState.opened c4Record (JValue.num 1)
      (some [PathTok.key "a"]) none).state = c4Record ∧
    (recordSet ConnState.opened c4Record (JValue.num 1)
      (some [PathTok.key "a"]) none).sent = [] ∧
    (recordSet ConnState.opened c4Record (JValue.num 1)
      (some [PathTok.key "a"]) none).invoked = [] :=
  set_equal_data_noop ConnState.opened c4Record (JValue.num 1)
    (some [PathTok.key "a"]) none rfl rfl rfl

def c2Record : RecordState :=
  { name := "r1", version := some 1, data := JValue.obj [("a", JValue.num 1)],
    isReady := true, isDestroyed := false, writeCallbacks := [], queued := [] }

def c2Msg : UpdateMessage :=
  { action := UpdAction.update, version := 3, path := [],
    payload := JValue.obj [("a", JValue.num 9)], writeConfig := none }

/-- Claim C2 counterexample: a record at version 1 receiving a remote UPDATE
for version 3 accepts the remote data through conflict recovery under the
default remote-wins strategy and ends at version 3, so the accepted version
sequence jumps from 1 to 3 and is not strictly increasing by exactly 1. -/
theorem version_gap_cex :
    c2Record.version = some 1 ∧
    (remoteStep c2Record c2Msg).state.version = some 3 ∧
    (remoteStep c2Record c2Msg).state.data = c2Msg.payload ∧
    (3 : Int) ≠ 1 + 1 := by
  refine ⟨rfl, rfl, rfl, by decide⟩

/-- Claim C2 as amended: an accepted non-conflicting remote update and an
effective local write each raise the version by exactly 1, but a version
conflict on UPDATE resolved by the default remote-wins strategy sets the
version to the remote version, which may skip values or decrease, so the
accepted version sequence is not gap-free in general. -/
theorem version_step_amended :
    (∀ (r : RecordState) (m : UpdateMessage) (v : Int), r.version = some v →
      v + 1 = m.version → (remoteStep r m).state.version = some (v + 1)) ∧
    (∀ (r : RecordState) (m : UpdateMessage) (v : Int), r.version = some v →
      v + 1 ≠ m.version → m.action = UpdAction.update →
      (remoteStep r m).state.version = some m.version) ∧
    (∀ (cs : ConnState) (r : RecordState) (data : JValue) (path : Option JPath)
        (cb : Option Nat) (v : Int),
      r.version = some v → r.isReady = true → r.isDestroyed = false →
      (path.isNone && !isContainer data) = false →
      jeq (newValueFor r path data) r.data = false →
      (recordSet cs r data path cb).state.version = some (v + 1)) := by
  refine ⟨?_, ?_, ?_⟩
  · intro r m v hv hm
    have hne : ¬ (v + 1 ≠ m.version) := fun hc => hc hm
    cases hA : m.action with
    | update => simp [remoteStep, applyUpdate, hv, hne, applyMsgData, hA, hm]
    | patch => simp [remoteStep, applyUpdate, hv, hne, applyMsgData, hA, hm]
  · intro r m v hv hne hact
    have hnp : m.action ≠ UpdAction.patch := by
      rw [hact]; intro hc; cases hc
    simp only [remoteStep, applyUpdate, hv, if_pos hne, if_neg hnp]
    simp only [recoverRecordDefault, remoteWins, onRecordRecovered,
      jeq_refl, if_pos]
    unfold applyChange
    split
    · split <;> rfl
    · split <;> rfl
  · intro cs r data path cb v hv hready hdest hguard hchanged
    cases path with
    | none =>
        simp only [Option.isNone_none, Bool.true_and] at hguard
        cases cb <;>
          simp [recordSet, hguard, hdest, hready, hchanged, sendUpdate,
            applyChange, setUpCallback, hv]
    | some p =>
        cases cb <;>
          simp [recordSet, hdest, hready, hchanged, sendUpdate,
            applyChange, setUpCallback, hv]

theorem version_step_amended_witness :
    (remoteStep c2Record c2Msg).state.version = some c2Msg.version :=
  version_step_amended.2.1 c2Record c2Msg 1 rfl (by decide) rfl

def c3Record : RecordState :=
  { name := "r1", version := some 5, data := JValue.obj [("a", JValue.num 1)],
    isReady := true, isDestroyed := false, writeCallbacks := [(5, 11)],
    queued := [] }

def c3RemoteData : JValue := JValue.obj [("a", JValue.num 2)]

/-- Claim C3 counterexample: a record whose superseded local write expected
version 5 (write callback 11 registered under 5) recovers from a remote
conflict at version 7 with reconciled data equal to the remote data; the
code looks the callback up under the freshly assigned remote version 7, so
callback 11 is neither invoked nor removed, contradicting the claim that the
callback for the local expected version is invoked and removed. -/
theorem recovered_callback_cex :
    cbLookup c3Record.writeCallbacks 5 = some 11 ∧
    (onRecordRecovered c3Record 7 c3RemoteData none none c3RemoteData).invoked
      = [] ∧
    (onRecordRecovered c3Record 7 c3RemoteData none none
      c3RemoteData).state.writeCallbacks = [(5, 11)] ∧
    (onRecordRecovered c3Record 7 c3RemoteData none none
      c3RemoteData).state.data = c3RemoteData := by
  refine ⟨rfl, rfl, rfl, rfl⟩

/-- Claim C3 as amended: when conflict recovery resolves without error and
the reconciled data equals the remote data, the reconciled data is applied
directly with the remote version, and if a write callback is registered for
the remote version, that callback is invoked with no error and removed; a
callback registered only under the local expected version is left in place
untouched. -/
theorem recovered_callback_remote_version (r : RecordState)
    (remoteVersion : Int) (remoteData : JValue) (cfg : Option Bool)
    (hdest : r.isDestroyed = false) :
    (onRecordRecovered r remoteVersion remoteData cfg none
      remoteData).state.version = some remoteVersion ∧
    (onRecordRecovered r remoteVersion remoteData cfg none
      remoteData).state.data = remoteData ∧
    (onRecordRecovered r remoteVersion remoteData cfg none
      remoteData).sent = [] ∧
    (match cbLookup r.writeCallbacks remoteVersion with
     | some cb =>
        (onRecordRecovered r remoteVersion remoteData cfg none
          remoteData).invoked = [(cb, none)] ∧
        (onRecordRecovered r remoteVersion remoteData cfg none
          remoteData).state.writeCallbacks = cbErase r.writeCallbacks remoteVersion
     | none =>
        (onRecordRecovered r remoteVersion remoteData cfg none
          remoteData).invoked = [] ∧
        (onRecordRecovered r remoteVersion remoteData cfg none
          remoteData).state.writeCallbacks = r.writeCallbacks) := by
  have hmain : onRecordRecovered r remoteVersion remoteData cfg none remoteData
      = (let r2 := applyChange { r with version := some remoteVersion } remoteData
         match cbLookup r2.writeCallbacks remoteVersion with
         | some cb =>
            { state :=
                { r2 with writeCallbacks := cbErase r2.writeCallbacks remoteVersion },
              sent := [], invoked := [(cb, none)], errorEmitted := false }
         | none =>
            { state := r2, sent := [], invoked := [], errorEmitted := false }) := by
    simp [onRecordRecovered, jeq_refl]
  rw [hmain]
  simp only [applyChange, hdest]
  simp only [Bool.false_eq_true, if_false]
  cases hcb : cbLookup r.writeCallbacks remoteVersion with
  | none => simp [hcb]
  | some cb => simp [hcb]

theorem recovered_callback_remote_version_witness :
    (onRecordRecovered c3Record 5 c3RemoteData none none
      c3RemoteData).state.version = some 5 ∧
    (onRecordRecovered c3Record 5 c3RemoteData none none
      c3RemoteData).invoked = [(11, none)] ∧
    (onRecordRecovered c3Record 5 c3RemoteData none none
      c3RemoteData).state.writeCallbacks = [] := by
  have h := recovered_callback_remote_version c3Record 5 c3RemoteData none rfl
  exact ⟨h.1, (h.2.2.2 : _ ∧ _).1, (h.2.2.2 : _ ∧ _).2⟩

def c5List : RecordState :=
  { name := "l1", version := some 1, data := strArr ["x", "y", "x"],
    isReady := true, isDestroyed := false, writeCallbacks := [], queued := [] }

/-- Claim C5 counterexample: on the ready list l1 with entries x, y, x and
add, remove and move listeners registered, remove_entry of y emits
ENTRY_MOVED events for x, because the index list of x changes from 0, 2 to
0, 1 with unchanged cardinality; the claim that no ENTRY_MOVED_EVENT is
emitted is false. -/
theorem remove_entry_moved_cex :
    ListEvent.moved "x" 1 ∈
      (listRemoveEntry true true true ConnState.opened c5List "y").2 := by
  decide

/-- Claim C5 as amended: on the ready list l1 with entries x, y, x and add,
remove and move listeners registered, remove_entry of y yields entries x, x
and emits exactly one ENTRY_REMOVED_EVENT with value y and index 1, no
ENTRY_ADDED_EVENT, and two ENTRY_MOVED_EVENT emissions for x at indices 0
and 1. -/
theorem remove_entry_events_amended :
    (listRemoveEntry true true true ConnState.opened c5List "y").1.state.data
      = strArr ["x", "x"] ∧
    (listRemoveEntry true true true ConnState.opened c5List "y").2 =
      [ListEvent.removed "y" 1, ListEvent.moved "x" 0, ListEvent.moved "x" 1] := by
  refine ⟨rfl, rfl⟩

theorem alookup_aset (reqs : List (String × List Nat)) (name : String)
    (v : List Nat) : alookup (aset reqs name v) name = some v := by
  induction reqs with
  | nil => simp [aset, alookup]
  | cons hd tl ih =>
      obtain ⟨k, v0⟩ := hd
      by_cases hk : k = name
      · simp [aset, alookup, hk]
      · simp [aset, alookup, hk, ih]

theorem alookup_append_none (reqs : List (String × List Nat)) (name : String)
    (v : List Nat) (h : alookup reqs name = none) :
    alookup (reqs ++ [(name, v)]) name = some v := by
  induction reqs with
  | nil => simp [alookup]
  | cons hd tl ih =>
      obtain ⟨k, v0⟩ := hd
      by_cases hk : k = name
      · simp [alookup, hk] at h
      · simp [alookup, hk] at h ⊢
        exact ih h

theorem hasMany_pending (name : String) (cbs : List Nat) :
    ∀ (h : HandlerState) (k : Nat) (l : List Nat),
    h.records.contains name = false →
    alookup h.hasRegistry.requests name = some l →
    (cbs.foldl (fun acc cb =>
      ((handlerHas acc.1 name cb).handler,
       acc.2 + (handlerHas acc.1 name cb).sent.length)) (h, k)).2 = k ∧
    alookup (cbs.foldl (fun acc cb =>
      ((handlerHas acc.1 name cb).handler,
       acc.2 + (handlerHas acc.1 name cb).sent.length))
      (h, k)).1.hasRegistry.requests name = some (l ++ cbs) := by
  induction cbs with
  | nil =>
      intro h k l hrec hpend
      exact ⟨rfl, by simpa using hpend⟩
  | cons c rest ih =>
      intro h k l hrec hpend
      have hmem : ¬ name ∈ h.records := by simpa using hrec
      have hstep : handlerHas h name c =
          { handler :=
              { h with hasRegistry :=
                  { requests := aset h.hasRegistry.requests name (l ++ [c]) } },
            invokedNow := [], sent := [] } := by
        simp [handlerHas, hmem, snRequest, hpend]
      rw [List.foldl_cons, hstep]
      have := ih { h with hasRegistry :=
          { requests := aset h.hasRegistry.requests name (l ++ [c]) } }
        (k + 0) (l ++ [c]) hrec (alookup_aset _ _ _)
      simpa using this

/-- Claim C6: for a name not resident in the records registry with no
pending has request, N concurrent has calls produce exactly one wire send,
and when the response is received all N callbacks are delivered in
registration order. -/
theorem has_request_dedup (h : HandlerState) (name : String) (cbs : List Nat)
    (hrec : h.records.contains name = false)
    (hpend : alookup h.hasRegistry.requests name = none)
    (hne : cbs ≠ []) :
    (hasMany h name cbs).2 = 1 ∧
    (snReceive (hasMany h name cbs).1.hasRegistry name).map
      (fun x => x.2) = some cbs := by
  cases cbs with
  | nil => exact absurd rfl hne
  | cons c rest =>
      have hmem : ¬ name ∈ h.records := by simpa using hrec
      have hstep : handlerHas h name c =
          { handler :=
              { h with hasRegistry :=
                  { requests := h.hasRegistry.requests ++ [(name, [c])] } },
            invokedNow := [],
            sent := [⟨recordTopic, ActionT.hasAction, [WireDatum.str name]⟩] } := by
        simp [handlerHas, hmem, snRequest, hpend]
      have hrest := hasMany_pending name rest
        { h with hasRegistry :=
            { requests := h.hasRegistry.requests ++ [(name, [c])] } }
        1 [c] hrec (alookup_append_none _ _ _ hpend)
      unfold hasMany
      rw [List.foldl_cons, hstep]
      refine ⟨by simpa using hrest.1, ?_⟩
      have hlook := hrest.2
      simp only [List.singleton_append] at hlook
      have hgoal : alookup ((rest.foldl (fun acc cb =>
          ((handlerHas acc.1 name cb).handler,
           acc.2 + (handlerHas acc.1 name cb).sent.length))
          ({ h with hasRegistry :=
              { requests := h.hasRegistry.requests ++ [(name, [c])] } },
           1)).1.hasRegistry.requests) name = some (c :: rest) := by
        simpa using hlook
      simp [snReceive, hgoal]

def c6Handler : HandlerState :=
  { records := [], hasRegistry := { requests := [] },
    snapshotRegistry := { requests := [] } }

theorem has_request_dedup_witness :
    (hasMany c6Handler "x" [1, 2, 3]).2 = 1 ∧
    (snReceive (hasMany c6Handler "x" [1, 2, 3]).1.hasRegistry "x").map
      (fun x => x.2) = some [1, 2, 3] :=
  has_request_dedup c6Handler "x" [1, 2, 3] rfl rfl (by decide)

def c7Handler : HandlerState :=
  { records := [], hasRegistry := { requests := [("x", [5])] },
    snapshotRegistry := { requests := [] } }

/-- Claim C7: an inbound ERROR tagged HAS for name x with callback 5 waiting
in the has registry and nothing pending in the snapshot registry is routed
by RecordHandler.handle to the snapshot registry (record.py line 899), whose
receive raises KeyError; no waiting callback receives the error and the has
registry keeps its pending entry, contradicting the claim that the registry
corresponding to the action resolves the request. -/
theorem has_error_misrouted :
    (handleRecordError c7Handler ErrTag.hasTag "x").keyError = true ∧
    (handleRecordError c7Handler ErrTag.hasTag "x").delivered = none ∧
    (handleRecordError c7Handler
      ErrTag.hasTag "x").handler.hasRegistry.requests = [("x", [5])] := by
  refine ⟨rfl, rfl, rfl⟩

def c8Notifier : NotifierState := { requests := [("x", [4])] }

/-- Claim C8: after a reconnect transition (RECONNECTING then OPEN) fires
the resubscribe action, the resend for the pending request of name x puts
the stored request entry list on the wire instead of the name: no resent
message mentions x, contradicting the claim that the request name is
resent. -/
theorem resend_carries_entries :
    handleConnStateChange false ConnState.reconnecting = (true, false) ∧
    handleConnStateChange true ConnState.opened = (false, true) ∧
    resendRequests recordTopic ActionT.hasAction c8Notifier =
      [⟨recordTopic, ActionT.hasAction, [WireDatum.entryRecords [4]]⟩] ∧
    (resendRequests recordTopic ActionT.hasAction c8Notifier).all
      (fun m => !(mentionsName m "x")) = true := by
  refine ⟨rfl, rfl, rfl, rfl⟩

/-- Claim C9: a list registered through get_list lives in both the records
and the lists registries; after its destruction _remove_record deletes only
the records entry, so the lists registry keeps the destroyed entity and a
later get_list returns it, contradicting the claim that a destroyed name is
removed from both registries. -/
theorem destroyed_list_stays_cached :
    (getListReg { records := [], lists := [] } "l" 0).1 =
      { records := [("l", 0)], lists := [("l", 0)] } ∧
    removeRecord (getListReg { records := [], lists := [] } "l" 0).1 "l" =
      { records := [], lists := [("l", 0)] } ∧
    (getListReg (removeRecord
      (getListReg { records := [], lists := [] } "l" 0).1 "l") "l" 1).2 = 0 := by
  refine ⟨rfl, rfl, rfl⟩

def c10Fresh : RecordState :=
  { name := "r1", version := none, data := JValue.obj [], isReady := false,
    isDestroyed := false, writeCallbacks := [], queued := [] }

def c10Data : JValue := JValue.obj [("a", JValue.num 2)]

def c10Ready : RecordState :=
  { name := "r1", version := some 1, data := JValue.obj [("a", JValue.num 1)],
    isReady := true, isDestroyed := false, writeCallbacks := [], queued := [] }

/-- Claim C10: a set call with a callback on a not-yet-ready record queues
only the data and path, and the replay after the first READ applies the
write and sends the UPDATE but registers no write callback, while the same
set on a ready record registers the callback under version 2; the queued
call is therefore not replayed in full and the claim fails on the code. -/
theorem queued_set_drops_callback :
    (recordSet ConnState.opened c10Fresh c10Data none (some 7)).state.queued
      = [(c10Data, none)] ∧
    (recordSet ConnState.opened c10Fresh c10Data none
      (some 7)).state.writeCallbacks = [] ∧
    (onRead ConnState.opened
      (recordSet ConnState.opened c10Fresh c10Data none (some 7)).state 1
      (JValue.obj [("a", JValue.num 1)])).1.writeCallbacks = [] ∧
    (onRead ConnState.opened
      (recordSet ConnState.opened c10Fresh c10Data none (some 7)).state 1
      (JValue.obj [("a", JValue.num 1)])).1.version = some 2 ∧
    (onRead ConnState.opened
      (recordSet ConnState.opened c10Fresh c10Data none (some 7)).state 1
      (JValue.obj [("a", JValue.num 1)])).1.data = c10Data ∧
    (recordSet ConnState.opened c10Ready c10Data none
      (some 7)).state.writeCallbacks = [(2, 7)] := by
  refine ⟨rfl, rfl, rfl, rfl, rfl, rfl⟩

end DeepstreamModel
